import Mathlib

/-!
Shallow embedding of the EventLens backend (src/projects/backend) for
specification checking.  Python integers are modelled as `Int`/`Nat`,
strings as `List Char`, floating-point timestamps as `ℚ`, geographic
coordinates and distances as `ℝ`.  External collaborators (the HMAC
primitive, the SHA-256 digest, the Gemini vision service, the EXIF
parser) are modelled as explicit parameters or outcome types, so that
every fault they can produce is quantified over.
-/

namespace EventLens

/-! ## Composite scorer (ai_judge.py, full_verification lines 231-267) -/

/-- Geofence classification returned by `check_geolocation`. -/
inductive GeoStatus
  | pass
  | fail
  | unavailable
deriving DecidableEq

/-- Result of `check_geolocation`: a status plus the rounded distance
(`None` when either coordinate pair is absent). -/
structure GeoResult where
  status : GeoStatus
  distanceKm : Option ℝ

/-- Summary produced by `extract_exif_metadata`: the `has_exif`,
`suspicious` and `flags` fields of the metadata dict (the fields the
composite scorer reads), plus the extracted strings. -/
structure ExifMeta where
  hasExif : Bool
  timestamp : Option (List Char)
  cameraModel : Option (List Char)
  software : Option (List Char)
  suspicious : Bool
  flags : List (List Char)

/-- One entry of the `adjustments` trail: each constructor corresponds to
one of the four f-string appends in the scoring section, carrying the data
the f-string interpolates. -/
inductive Adjustment
  | geoPass (distanceKm : Option ℝ)
  | geoFail (distanceKm : Option ℝ)
  | edited (flags : List (List Char))
  | noExifPenalty

/-- The composite scoring section of `full_verification` (ai_judge.py
lines 231-251): starting from the vision confidence, apply the geofence
bonus/penalty, the edited-image penalty and the missing-EXIF penalty in
that order, appending one trail entry per applied step.  Returns the
final confidence together with the adjustment trail. -/
def composite (c0 : Int) (geo : GeoResult) (exif : ExifMeta) : Int × List Adjustment :=
  let s1 : Int × List Adjustment :=
    if geo.status = GeoStatus.pass then
      (min 100 (c0 + 5), [Adjustment.geoPass geo.distanceKm])
    else if geo.status = GeoStatus.fail then
      (max 0 (c0 - 15), [Adjustment.geoFail geo.distanceKm])
    else (c0, [])
  let s2 : Int × List Adjustment :=
    if exif.suspicious then (max 0 (s1.1 - 20), s1.2 ++ [Adjustment.edited exif.flags])
    else s1
  let s3 : Int × List Adjustment :=
    if !exif.hasExif && decide (s2.1 > 60) then
      (max 0 (s2.1 - 5), s2.2 ++ [Adjustment.noExifPenalty])
    else s2
  s3

/-- Geofence step as the spec words it: `pass` adds 5 clamped at 100,
`fail` subtracts 15 clamped at 0, `unavailable` leaves the score
unchanged. -/
def specGeoStep (geo : GeoStatus) (c : Int) : Int :=
  match geo with
  | GeoStatus.pass => min 100 (c + 5)
  | GeoStatus.fail => max 0 (c - 15)
  | GeoStatus.unavailable => c

/-- Forensic step as the spec words it: suspicious subtracts 20 (clamped
at 0). -/
def specForensicStep (suspicious : Bool) (c : Int) : Int :=
  if suspicious then max 0 (c - 20) else c

/-- Provenance step as the spec words it: missing provenance subtracts 5
(clamped at 0) only when the running confidence is strictly greater
than 60. -/
def specProvenanceStep (hasProvenance : Bool) (c : Int) : Int :=
  if !hasProvenance && decide (c > 60) then max 0 (c - 5) else c

/-- Trail described by the spec: one entry for each applied step, in the
fixed order geofence, forensic, provenance. -/
def specTrail (geo : GeoResult) (exif : ExifMeta) (afterForensic : Int) : List Adjustment :=
  (match geo.status with
   | GeoStatus.pass => [Adjustment.geoPass geo.distanceKm]
   | GeoStatus.fail => [Adjustment.geoFail geo.distanceKm]
   | GeoStatus.unavailable => [])
  ++ (if exif.suspicious then [Adjustment.edited exif.flags] else [])
  ++ (if !exif.hasExif && decide (afterForensic > 60) then [Adjustment.noExifPenalty] else [])

end EventLens

namespace EventLens

/-- C1 counterexample: with vision confidence 150 (an adversarial vision
reply is parsed with `int(...)` and never clamped), geofence
`unavailable`, no forensic flags and provenance present, the composite
scorer returns 150, outside [0, 100].  The claim quantifies over any
vision confidence integer, so it is false as stated. -/
theorem composite_unbounded_cex :
    ¬ ((composite 150 ⟨GeoStatus.unavailable, none⟩
        ⟨true, none, none, none, false, []⟩).1 ≤ 100) := by
  have h : (composite 150 ⟨GeoStatus.unavailable, none⟩
      ⟨true, none, none, none, false, []⟩).1 = 150 := rfl
  rw [h]
  decide

/-- C1 (amended): whenever the vision confidence lies in [0, 100] (the
range the vision contract promises), the final composite confidence is
in [0, 100] for every geofence status and every combination of forensic
flags, including the adversarial extremes. -/
theorem composite_bounded_of_vision_range (c : Int) (geo : GeoResult) (exif : ExifMeta)
    (h0 : 0 ≤ c) (h1 : c ≤ 100) :
    0 ≤ (composite c geo exif).1 ∧ (composite c geo exif).1 ≤ 100 := by
  unfold composite
  rcases geo with ⟨gs, gd⟩
  rcases exif with ⟨he, _, _, _, susp, _⟩
  cases gs <;> cases susp <;> cases he <;>
    simp only [] <;> split_ifs <;> simp_all <;> omega

/-- C1 witness: the amended bound instantiated at the adversarial extreme
vision = 100, geofence fail, suspicious forensic, no provenance. -/
theorem composite_bounded_witness :
    0 ≤ (composite 100 ⟨GeoStatus.fail, some 50⟩
        ⟨false, none, none, none, true, []⟩).1 ∧
      (composite 100 ⟨GeoStatus.fail, some 50⟩
        ⟨false, none, none, none, true, []⟩).1 ≤ 100 :=
  composite_bounded_of_vision_range 100 ⟨GeoStatus.fail, some 50⟩
    ⟨false, none, none, none, true, []⟩ (by decide) (by decide)

/-- C4: the composite scorer applies the three adjustment stages in the
fixed order geofence, forensic, provenance, with the deltas and clamps
the spec states, and appends one trail entry per applied step: its final
confidence is the composition of the three spec steps, and its trail is
the spec trail. -/
theorem composite_fixed_order (c0 : Int) (geo : GeoResult) (exif : ExifMeta) :
    (composite c0 geo exif).1 =
      specProvenanceStep exif.hasExif
        (specForensicStep exif.suspicious (specGeoStep geo.status c0)) ∧
    (composite c0 geo exif).2 =
      specTrail geo exif (specForensicStep exif.suspicious (specGeoStep geo.status c0)) := by
  unfold composite specProvenanceStep specForensicStep specGeoStep specTrail
  rcases geo with ⟨gs, gd⟩
  rcases exif with ⟨he, ts, cm, sw, susp, fl⟩
  cases gs <;> cases susp <;> cases he <;> simp <;> split_ifs <;> simp_all

end EventLens

namespace EventLens

/-! ## Decimal rendering and parsing

The token fields are produced with Python `str(...)` and consumed with
`int(...)`.  `natDigits`/`intRepr` model `str` on a non-negative / an
arbitrary integer; `parseNat?`/`parseInt?` model `int(...)` on the
canonical strings the system itself produces (a failure is `none`, the
`ValueError` branch). -/

/-- Decimal digit character of `n < 10`. -/
def digitChar (n : Nat) : Char := Char.ofNat (48 + n)

/-- Numeric value of a decimal digit character. -/
def digitVal (c : Char) : Nat := c.toNat - 48

/-- Decimal digit test. -/
def isDigitChar (c : Char) : Bool := decide ('0' ≤ c) && decide (c ≤ '9')

/-- Fuel-driven digit expansion: `natDigitsAux fuel n` is the decimal
rendering of `n` provided `n < fuel`. -/
def natDigitsAux : Nat → Nat → List Char
  | 0, _ => []
  | fuel + 1, n =>
    if n < 10 then [digitChar n]
    else natDigitsAux fuel (n / 10) ++ [digitChar (n % 10)]

/-- Decimal rendering of a natural number (Python `str(n)` for `n ≥ 0`). -/
def natDigits (n : Nat) : List Char := natDigitsAux (n + 1) n

/-- Decimal rendering of an integer (Python `str(n)`). -/
def intRepr (n : Int) : List Char :=
  if n < 0 then '-' :: natDigits n.natAbs else natDigits n.toNat

/-- Parse a non-negative decimal string, `none` on anything else. -/
def parseNat? : List Char → Option Nat
  | [] => none
  | c :: rest =>
    if (c :: rest).all isDigitChar then
      some ((c :: rest).foldl (fun a d => a * 10 + digitVal d) 0)
    else none

/-- Parse a decimal integer with optional leading minus (the fragment of
Python `int(...)` exercised by the token code), `none` on anything
else. -/
def parseInt? : List Char → Option Int
  | [] => none
  | c :: rest =>
    if c = '-' then (parseNat? rest).map (fun v => -(v : Int))
    else (parseNat? (c :: rest)).map (fun v => (v : Int))

theorem digitVal_digitChar : ∀ n, n < 10 → digitVal (digitChar n) = n := by decide

theorem isDigitChar_digitChar : ∀ n, n < 10 → isDigitChar (digitChar n) = true := by decide

theorem ne_colon_of_isDigitChar {c : Char} (h : isDigitChar c = true) : c ≠ ':' := by
  intro heq
  subst heq
  exact absurd h (by decide)

theorem ne_minus_of_isDigitChar {c : Char} (h : isDigitChar c = true) : c ≠ '-' := by
  intro heq
  subst heq
  exact absurd h (by decide)

theorem natDigitsAux_ne_nil (fuel n : Nat) (h : n < fuel) : natDigitsAux fuel n ≠ [] := by
  cases fuel with
  | zero => omega
  | succ f =>
    unfold natDigitsAux
    split
    · simp
    · simp

theorem natDigitsAux_all_digits (fuel : Nat) :
    ∀ n, n < fuel → (natDigitsAux fuel n).all isDigitChar = true := by
  induction fuel with
  | zero => intro n h; omega
  | succ f ih =>
    intro n h
    unfold natDigitsAux
    split
    · next h10 =>
      simp [isDigitChar_digitChar n h10]
    · next h10 =>
      have hdiv : n / 10 < f := by
        have := Nat.div_lt_self (by omega : 0 < n) (by omega : 1 < 10)
        omega
      have hmod : n % 10 < 10 := Nat.mod_lt _ (by omega)
      simp [List.all_append, ih (n / 10) hdiv, isDigitChar_digitChar _ hmod]

theorem natDigitsAux_foldl (fuel : Nat) :
    ∀ n, n < fuel →
      (natDigitsAux fuel n).foldl (fun a d => a * 10 + digitVal d) 0 = n := by
  induction fuel with
  | zero => intro n h; omega
  | succ f ih =>
    intro n h
    unfold natDigitsAux
    split
    · next h10 =>
      simp [digitVal_digitChar n h10]
    · next h10 =>
      have hdiv : n / 10 < f := by
        have := Nat.div_lt_self (by omega : 0 < n) (by omega : 1 < 10)
        omega
      have hmod : n % 10 < 10 := Nat.mod_lt _ (by omega)
      rw [List.foldl_append, ih (n / 10) hdiv]
      simp [digitVal_digitChar _ hmod]
      omega

theorem natDigits_ne_nil (n : Nat) : natDigits n ≠ [] :=
  natDigitsAux_ne_nil (n + 1) n (Nat.lt_succ_self n)

theorem natDigits_all_digits (n : Nat) : (natDigits n).all isDigitChar = true :=
  natDigitsAux_all_digits (n + 1) n (Nat.lt_succ_self n)

theorem parseNat?_natDigits (n : Nat) : parseNat? (natDigits n) = some n := by
  cases heq : natDigits n with
  | nil => exact absurd heq (natDigits_ne_nil n)
  | cons c rest =>
    have hall : (c :: rest).all isDigitChar = true := heq ▸ natDigits_all_digits n
    have hfold : (c :: rest).foldl (fun a d => a * 10 + digitVal d) 0 = n :=
      heq ▸ natDigitsAux_foldl (n + 1) n (Nat.lt_succ_self n)
    simp [parseNat?, hall, hfold]

theorem parseInt?_natDigits (n : Nat) : parseInt? (natDigits n) = some (n : Int) := by
  cases heq : natDigits n with
  | nil => exact absurd heq (natDigits_ne_nil n)
  | cons c rest =>
    have hall : (c :: rest).all isDigitChar = true := heq ▸ natDigits_all_digits n
    have hc : isDigitChar c = true := by
      rw [List.all_cons] at hall
      exact (Bool.and_eq_true _ _).mp hall |>.1
    have hcm : ¬ c = '-' := ne_minus_of_isDigitChar hc
    have := parseNat?_natDigits n
    rw [heq] at this
    simp [parseInt?, hcm, this]

theorem parseInt?_intRepr (n : Int) : parseInt? (intRepr n) = some n := by
  by_cases h : n < 0
  · have h1 : intRepr n = '-' :: natDigits n.natAbs := by simp [intRepr, h]
    have h3 : parseInt? ('-' :: natDigits n.natAbs) =
        (parseNat? (natDigits n.natAbs)).map (fun v => -(v : Int)) := rfl
    have h4 : (some n.natAbs).map (fun v => -(v : Int)) = some (-(n.natAbs : Int)) := rfl
    rw [h1, h3, parseNat?_natDigits, h4]
    congr 1
    omega
  · have h2 : intRepr n = natDigits n.toNat := by simp [intRepr, h]
    rw [h2, parseInt?_natDigits]
    congr 1
    omega

theorem colon_not_mem_natDigits (n : Nat) : ':' ∉ natDigits n := by
  intro hmem
  have := (List.all_eq_true.mp (natDigits_all_digits n)) _ hmem
  exact ne_colon_of_isDigitChar this rfl

theorem colon_not_mem_intRepr (n : Int) : ':' ∉ intRepr n := by
  unfold intRepr
  split
  · intro hmem
    rcases List.mem_cons.mp hmem with h | h
    · exact absurd h.symm (by decide)
    · exact colon_not_mem_natDigits _ h
  · exact colon_not_mem_natDigits _

end EventLens

namespace EventLens

/-! ## Colon-separated wire format (verify_token.py) -/

/-- Python `str.split(":")` on a character list. -/
def splitOnColon : List Char → List (List Char)
  | [] => [[]]
  | c :: rest =>
    match splitOnColon rest with
    | [] => [[]]
    | p :: ps => if c = ':' then [] :: p :: ps else (c :: p) :: ps

theorem splitOnColon_cons (c : Char) (rest : List Char) :
    splitOnColon (c :: rest) =
      match splitOnColon rest with
      | [] => [[]]
      | p :: ps => if c = ':' then [] :: p :: ps else (c :: p) :: ps := rfl

theorem splitOnColon_ne_nil (s : List Char) : splitOnColon s ≠ [] := by
  induction s with
  | nil => simp [splitOnColon]
  | cons c rest ih =>
    obtain ⟨p, ps, h⟩ : ∃ p ps, splitOnColon rest = p :: ps := by
      cases hh : splitOnColon rest with
      | nil => exact absurd hh ih
      | cons p ps => exact ⟨p, ps, rfl⟩
    rw [splitOnColon_cons, h]
    split
    · simp
    · split <;> simp

theorem splitOnColon_no_colon (s : List Char) (h : ':' ∉ s) : splitOnColon s = [s] := by
  induction s with
  | nil => rfl
  | cons c rest ih =>
    have hc : ¬ c = ':' := fun heq => h (heq ▸ List.mem_cons_self c rest)
    have hrest : ':' ∉ rest := fun hm => h (List.mem_cons_of_mem c hm)
    rw [splitOnColon_cons, ih hrest]
    simp [hc]

theorem splitOnColon_append (a rest : List Char) (ha : ':' ∉ a) :
    splitOnColon (a ++ ':' :: rest) = a :: splitOnColon rest := by
  induction a with
  | nil =>
    obtain ⟨p, ps, h⟩ : ∃ p ps, splitOnColon rest = p :: ps := by
      cases hh : splitOnColon rest with
      | nil => exact absurd hh (splitOnColon_ne_nil rest)
      | cons p ps => exact ⟨p, ps, rfl⟩
    simp only [List.nil_append]
    rw [splitOnColon_cons, h]
    simp
  | cons c a2 ih =>
    have hc : ¬ c = ':' := fun heq => ha (heq ▸ List.mem_cons_self c a2)
    have ha2 : ':' ∉ a2 := fun hm => ha (List.mem_cons_of_mem c hm)
    simp only [List.cons_append]
    rw [splitOnColon_cons, ih ha2]
    simp [hc]

/-! ## Capability token service (verify_token.py)

The HMAC-SHA256 primitive is external (`hmac.new(...).hexdigest()`); it
is modelled as an explicit function parameter `mac` from the signed
payload to the hex signature (the secret is baked into it, as
`VERIFY_SECRET` is baked into the Python closure). -/

/-- Token TTL in seconds: `TOKEN_TTL = 600` in verify_token.py. -/
def TOKEN_TTL : Int := 600

/-- The literal `"none"` used as digest placeholder for an empty hash. -/
def noneLit : List Char := ['n', 'o', 'n', 'e']

/-- Digest fragment stored in the token:
`image_hash[:16] if image_hash else "none"`. -/
def hashPfx (imageHash : List Char) : List Char :=
  if imageHash = [] then noneLit else imageHash.take 16

/-- The signed payload
`f"{event_id}:{wallet_address}:{confidence}:{hash_prefix}:{ts}"`. -/
def tokenPayload (eventId wallet : List Char) (confidence : Int)
    (hp ts : List Char) : List Char :=
  eventId ++ ':' :: (wallet ++ ':' :: (intRepr confidence ++ ':' :: (hp ++ ':' :: ts)))

/-- `create_verify_token`: issue timestamp, confidence, digest fragment
and MAC, joined with colons. -/
def createVerifyToken (mac : List Char → List Char) (eventId wallet : List Char)
    (confidence : Int) (imageHash : List Char) (now : Nat) : List Char :=
  let ts := natDigits now
  let hp := hashPfx imageHash
  let sig := mac (tokenPayload eventId wallet confidence hp ts)
  ts ++ ':' :: (intRepr confidence ++ ':' :: (hp ++ ':' :: sig))

/-- Data returned by a successful validation. -/
structure TokenData where
  confidence : Int
  imageHash : List Char
  timestamp : Int
deriving DecidableEq

/-- `validate_verify_token`: reject unless the token has exactly four
colon-separated fields, both numeric fields parse, the age is within
`TOKEN_TTL`, the confidence reaches `minConfidence` (callers default it
to 80), and the recomputed MAC over the caller-supplied event and wallet
equals the token's signature.  `none` models both the explicit `return
None` branches and the `except (ValueError, TypeError)` handler. -/
def validateVerifyToken (mac : List Char → List Char) (token eventId wallet : List Char)
    (minConfidence : Int) (now : Int) : Option TokenData :=
  match splitOnColon token with
  | [ts, confStr, hp, providedSig] =>
    match parseInt? confStr, parseInt? ts with
    | some confidence, some timestamp =>
      if now - timestamp > TOKEN_TTL then none
      else if confidence < minConfidence then none
      else if providedSig = mac (tokenPayload eventId wallet confidence hp ts) then
        some ⟨confidence, hp, timestamp⟩
      else none
    | _, _ => none
  | _ => none

/-- Hex-digit test (an HMAC hexdigest and a SHA-256 hexdigest consist of
these characters). -/
def isHexDigitChar (c : Char) : Bool :=
  isDigitChar c || (decide ('a' ≤ c) && decide (c ≤ 'f'))
    || (decide ('A' ≤ c) && decide (c ≤ 'F'))

theorem ne_colon_of_isHexDigitChar {c : Char} (h : isHexDigitChar c = true) : c ≠ ':' := by
  intro heq
  subst heq
  exact absurd h (by decide)

theorem colon_not_mem_hashPfx (d : List Char) (hhex : d.all isHexDigitChar = true) :
    ':' ∉ hashPfx d := by
  unfold hashPfx
  split
  · decide
  · intro hmem
    have hd : ':' ∈ d := List.take_subset 16 d hmem
    exact ne_colon_of_isHexDigitChar (List.all_eq_true.mp hhex _ hd) rfl

/-- Demonstration MAC used by concrete witnesses and counterexamples: a
deterministic, colon-free hex-like rendering of the payload (stands in
for an HMAC-SHA256 hexdigest, which is likewise deterministic and
colon-free). -/
def macDemo (m : List Char) : List Char :=
  m.foldr (fun ch acc => natDigits ch.toNat ++ acc) []

end EventLens

namespace EventLens

/-- Reduction of `validateVerifyToken` on a well-formed four-field token:
splitting, parsing and payload reconstruction all succeed, leaving the
expiry, threshold and signature checks. -/
theorem validateVerifyToken_wellformed (mac : List Char → List Char) (e s : List Char)
    (c : Int) (d : List Char) (t : Nat) (sig : List Char) (minc now : Int)
    (hhex : d.all isHexDigitChar = true) (hsig : ':' ∉ sig) :
    validateVerifyToken mac
        (natDigits t ++ ':' :: (intRepr c ++ ':' :: (hashPfx d ++ ':' :: sig))) e s minc now =
      (if now - (t : Int) > TOKEN_TTL then none
       else if c < minc then none
       else if sig = mac (tokenPayload e s c (hashPfx d) (natDigits t)) then
         some ⟨c, hashPfx d, (t : Int)⟩
       else none) := by
  have hts := colon_not_mem_natDigits t
  have hcf := colon_not_mem_intRepr c
  have hhp := colon_not_mem_hashPfx d hhex
  unfold validateVerifyToken
  rw [splitOnColon_append _ _ hts, splitOnColon_append _ _ hcf,
      splitOnColon_append _ _ hhp, splitOnColon_no_colon _ hsig]
  simp only [parseInt?_intRepr, parseInt?_natDigits]

end EventLens

namespace EventLens

/-- C2: validating a token produced by `create_verify_token` with the
same event and subject, a threshold not exceeding the asserted
confidence, and within the TTL, succeeds and returns the confidence and
the 16-character digest fragment (the literal `"none"` when the digest
is empty).  Hypotheses: the digest is a hex string and the MAC output is
colon-free (both true of SHA-256 hexdigests), as the wire format
requires. -/
theorem token_roundtrip (mac : List Char → List Char) (e s : List Char) (c : Int)
    (d : List Char) (t : Nat) (minc now : Int)
    (hmac : ':' ∉ mac (tokenPayload e s c (hashPfx d) (natDigits t)))
    (hhex : d.all isHexDigitChar = true)
    (hthr : minc ≤ c)
    (httl : now - (t : Int) ≤ TOKEN_TTL) :
    validateVerifyToken mac (createVerifyToken mac e s c d t) e s minc now =
      some ⟨c, if d = [] then noneLit else d.take 16, (t : Int)⟩ := by
  have hcreate : createVerifyToken mac e s c d t =
      natDigits t ++ ':' :: (intRepr c ++ ':' :: (hashPfx d ++ ':' ::
        mac (tokenPayload e s c (hashPfx d) (natDigits t)))) := rfl
  rw [hcreate, validateVerifyToken_wellformed mac e s c d t _ minc now hhex hmac]
  rw [if_neg (not_lt.mpr httl), if_neg (not_lt.mpr hthr), if_pos rfl]
  rfl

/-- C2 witness: a concrete round trip with a nonempty hex digest,
issuance at t = 5, validation at t = 100, threshold 80 ≤ confidence
85. -/
theorem token_roundtrip_witness :
    validateVerifyToken macDemo
        (createVerifyToken macDemo ['e'] ['w'] 85 ['a', 'b', '1', '2'] 5) ['e'] ['w'] 80 100 =
      some ⟨85, if (['a', 'b', '1', '2'] : List Char) = [] then noneLit
                else (['a', 'b', '1', '2'] : List Char).take 16, ((5 : Nat) : Int)⟩ :=
  token_roundtrip macDemo ['e'] ['w'] 85 ['a', 'b', '1', '2'] 5 80 100
    (by decide) (by decide) (by decide) (by decide)

end EventLens

namespace EventLens

/-- C3 counterexample: the signed payload joins event and subject with
colons without escaping, so the pairs `("a:b", "c")` and `("a", "b:c")`
produce the identical payload and the identical MAC.  A token issued for
event `"a:b"`, subject `"c"` is accepted when validated with the
different event `"a"` and subject `"b:c"` — the claim that validation
returns `None` whenever the event or subject differs from issuance is
false as stated (for any MAC, since the signed payloads coincide). -/
theorem token_colon_ambiguity_cex :
    ((['a', ':', 'b'], ['c']) : List Char × List Char) ≠ (['a'], ['b', ':', 'c']) ∧
    validateVerifyToken macDemo
        (createVerifyToken macDemo ['a', ':', 'b'] ['c'] 90 [] 0)
        ['a'] ['b', ':', 'c'] 80 0 =
      some ⟨90, noneLit, 0⟩ := by
  constructor
  · decide
  · decide

/-- C3 (amended): validation rejects (returns `None`) when the token
does not split into exactly four colon-separated fields; when the event
or subject differs from issuance, provided the two signed payloads get
different MACs (HMAC collision resistance — and, as the counterexample
forces, the payloads must actually differ: colon-ambiguous event/subject
pairs yield the same payload and are wrongly accepted); when the
signature field is any string other than the correct MAC (in particular
any single altered character); when the token's age exceeds the TTL of
600 seconds; and when the asserted confidence is below the caller's
minimum even with a valid signature. -/
theorem token_rejections :
    (∀ (mac : List Char → List Char) (token e s : List Char) (minc now : Int),
        (splitOnColon token).length ≠ 4 →
        validateVerifyToken mac token e s minc now = none) ∧
    (∀ (mac : List Char → List Char) (e s e2 s2 : List Char) (c : Int) (d : List Char)
        (t : Nat) (minc now : Int),
        d.all isHexDigitChar = true →
        ':' ∉ mac (tokenPayload e s c (hashPfx d) (natDigits t)) →
        mac (tokenPayload e2 s2 c (hashPfx d) (natDigits t)) ≠
          mac (tokenPayload e s c (hashPfx d) (natDigits t)) →
        validateVerifyToken mac (createVerifyToken mac e s c d t) e2 s2 minc now = none) ∧
    (∀ (mac : List Char → List Char) (e s : List Char) (c : Int) (d : List Char)
        (t : Nat) (sig2 : List Char) (minc now : Int),
        d.all isHexDigitChar = true →
        ':' ∉ sig2 →
        sig2 ≠ mac (tokenPayload e s c (hashPfx d) (natDigits t)) →
        validateVerifyToken mac
            (natDigits t ++ ':' :: (intRepr c ++ ':' :: (hashPfx d ++ ':' :: sig2)))
            e s minc now = none) ∧
    (∀ (mac : List Char → List Char) (e s : List Char) (c : Int) (d : List Char)
        (t : Nat) (minc now : Int),
        d.all isHexDigitChar = true →
        ':' ∉ mac (tokenPayload e s c (hashPfx d) (natDigits t)) →
        now - (t : Int) > TOKEN_TTL →
        validateVerifyToken mac (createVerifyToken mac e s c d t) e s minc now = none) ∧
    (∀ (mac : List Char → List Char) (e s : List Char) (c : Int) (d : List Char)
        (t : Nat) (minc now : Int),
        d.all isHexDigitChar = true →
        ':' ∉ mac (tokenPayload e s c (hashPfx d) (natDigits t)) →
        c < minc →
        validateVerifyToken mac (createVerifyToken mac e s c d t) e s minc now = none) := by
  refine ⟨?_, ?_, ?_, ?_, ?_⟩
  · intro mac token e s minc now hlen
    unfold validateVerifyToken
    split
    · next ts confStr hp sig heq =>
      exact absurd (by rw [heq] ; rfl : (splitOnColon token).length = 4) hlen
    · rfl
  · intro mac e s e2 s2 c d t minc now hhex hmac hne
    have hcreate : createVerifyToken mac e s c d t =
        natDigits t ++ ':' :: (intRepr c ++ ':' :: (hashPfx d ++ ':' ::
          mac (tokenPayload e s c (hashPfx d) (natDigits t)))) := rfl
    rw [hcreate, validateVerifyToken_wellformed mac e2 s2 c d t _ minc now hhex hmac]
    split_ifs with h1 h2 h3
    · rfl
    · rfl
    · exact absurd h3.symm hne
    · rfl
  · intro mac e s c d t sig2 minc now hhex hsig hne
    rw [validateVerifyToken_wellformed mac e s c d t sig2 minc now hhex hsig]
    split_ifs with h1 h2
    · rfl
    · rfl
    · rfl
  · intro mac e s c d t minc now hhex hmac hexp
    have hcreate : createVerifyToken mac e s c d t =
        natDigits t ++ ':' :: (intRepr c ++ ':' :: (hashPfx d ++ ':' ::
          mac (tokenPayload e s c (hashPfx d) (natDigits t)))) := rfl
    rw [hcreate, validateVerifyToken_wellformed mac e s c d t _ minc now hhex hmac,
      if_pos hexp]
  · intro mac e s c d t minc now hhex hmac hlt
    have hcreate : createVerifyToken mac e s c d t =
        natDigits t ++ ':' :: (intRepr c ++ ':' :: (hashPfx d ++ ':' ::
          mac (tokenPayload e s c (hashPfx d) (natDigits t)))) := rfl
    rw [hcreate, validateVerifyToken_wellformed mac e s c d t _ minc now hhex hmac]
    split_ifs with h1
    · rfl
    · rfl

/-- C3 witness: each rejection branch exercised at a concrete input:
a one-field token; a token validated with a different event; a token
with a corrupted signature; a token validated 1000 seconds after
issuance (TTL 600); a token asserting confidence 50 against the default
minimum 80. -/
theorem token_rejections_witness :
    validateVerifyToken macDemo ['x'] ['e'] ['w'] 80 0 = none ∧
    validateVerifyToken macDemo (createVerifyToken macDemo ['e'] ['w'] 90 [] 0)
      ['f'] ['w'] 80 0 = none ∧
    validateVerifyToken macDemo
      (natDigits 0 ++ ':' :: (intRepr 90 ++ ':' :: (hashPfx [] ++ ':' :: ['0'])))
      ['e'] ['w'] 80 0 = none ∧
    validateVerifyToken macDemo (createVerifyToken macDemo ['e'] ['w'] 90 [] 0)
      ['e'] ['w'] 80 1000 = none ∧
    validateVerifyToken macDemo (createVerifyToken macDemo ['e'] ['w'] 50 [] 0)
      ['e'] ['w'] 80 0 = none :=
  ⟨token_rejections.1 macDemo ['x'] ['e'] ['w'] 80 0 (by decide),
   token_rejections.2.1 macDemo ['e'] ['w'] ['f'] ['w'] 90 [] 0 80 0
     (by decide) (by decide) (by decide),
   token_rejections.2.2.1 macDemo ['e'] ['w'] 90 [] 0 ['0'] 80 0
     (by decide) (by decide) (by decide),
   token_rejections.2.2.2.1 macDemo ['e'] ['w'] 90 [] 0 80 1000
     (by decide) (by decide) (by decide),
   token_rejections.2.2.2.2 macDemo ['e'] ['w'] 50 [] 0 80 0
     (by decide) (by decide) (by decide)⟩

end EventLens

namespace EventLens

/-! ## Claim ledger (event_store.py)

The JSON file – a dict keyed by event id – is modelled as an ordered
association list; the process-wide `_lock` makes each store operation
atomic, so each one is a pure function from store to store. -/

/-- The `attendees` field: either the legacy list of wallet addresses or
the current dict mapping wallet address to its `claimed_at` string. -/
inductive AttendeesRep
  | legacy (ws : List (List Char))
  | table (m : List (List Char × List Char))
deriving DecidableEq

/-- One event record (the fields the backend writes and reads; venue
coordinates are read with `.get`, absent in older records, hence
optional). -/
structure EventRec where
  id : List Char
  name : List Char
  description : List Char
  location : List Char
  assetId : Nat
  totalBadges : Nat
  minted : Nat
  createdAt : List Char
  latitude : Option ℝ
  longitude : Option ℝ
  attendees : AttendeesRep

instance : Inhabited AttendeesRep := ⟨AttendeesRep.table []⟩

instance : Inhabited EventRec :=
  ⟨⟨[], [], [], [], 0, 0, 0, [], none, none, AttendeesRep.table []⟩⟩

/-- The events dict. -/
def Store := List (List Char × EventRec)

/-- Dict lookup `events.get(event_id)`. -/
def findEvent (events : Store) (eventId : List Char) : Option EventRec :=
  (List.find? (fun kv => kv.1 == eventId) events).map (fun kv => kv.2)

/-- Migration of the legacy list format performed inside
`increment_minted`: each wallet receives the current timestamp. -/
def migrateAttendees (a : AttendeesRep) (nowIso : List Char) : AttendeesRep :=
  match a with
  | AttendeesRep.legacy ws => AttendeesRep.table (ws.map (fun w => (w, nowIso)))
  | AttendeesRep.table m => AttendeesRep.table m

/-- The conditional insert inside `increment_minted`: add the wallet
with the current timestamp only when it is not already a key. -/
def addAttendee (a : AttendeesRep) (wallet nowIso : List Char) : AttendeesRep :=
  match a with
  | AttendeesRep.table m =>
    if m.any (fun p => p.1 == wallet) then AttendeesRep.table m
    else AttendeesRep.table (m ++ [(wallet, nowIso)])
  | AttendeesRep.legacy ws => AttendeesRep.legacy ws

/-- Update applied to the event record by `increment_minted`: bump the
counter, migrate the attendee representation, insert the wallet if
absent. -/
def mintUpd (wallet nowIso : List Char) (ev : EventRec) : EventRec :=
  { ev with minted := ev.minted + 1,
            attendees := addAttendee (migrateAttendees ev.attendees nowIso) wallet nowIso }

/-- `increment_minted(event_id, wallet_address)`: a no-op when the event
id is unknown (the `if event_id in events` guard), otherwise the record
update above, written back under the lock. -/
def incrementMinted (events : Store) (eventId wallet nowIso : List Char) : Store :=
  if events.any (fun kv => kv.1 == eventId) then
    events.map (fun kv =>
      if kv.1 == eventId then (kv.1, mintUpd wallet nowIso kv.2) else kv)
  else events

/-- `has_claimed(event_id, wallet_address)`: membership of the wallet in
the attendee list/dict, `False` for an unknown event. -/
def hasClaimed (events : Store) (eventId wallet : List Char) : Bool :=
  match findEvent events eventId with
  | none => false
  | some ev =>
    match ev.attendees with
    | AttendeesRep.legacy ws => ws.any (fun w => w == wallet)
    | AttendeesRep.table m => m.any (fun p => p.1 == wallet)

/-- Minted counter of an event, `none` for an unknown event. -/
def mintedOf (events : Store) (eventId : List Char) : Option Nat :=
  (findEvent events eventId).map (fun ev => ev.minted)

/-- Attendee representation of an event, `none` for an unknown event. -/
def attendeesOf (events : Store) (eventId : List Char) : Option AttendeesRep :=
  (findEvent events eventId).map (fun ev => ev.attendees)

theorem findEvent_cons (key : List Char) (ev : EventRec) (rest : Store) (k : List Char) :
    findEvent ((key, ev) :: rest) k = if key = k then some ev else findEvent rest k := by
  by_cases h : key = k
  · unfold findEvent
    rw [List.find?_cons_of_pos _ (by simpa using h)]
    simp [h]
  · unfold findEvent
    rw [List.find?_cons_of_neg _ (by simpa using h)]
    simp [h]

theorem findEvent_map_upd (events : Store) (eventId k : List Char) (g : EventRec → EventRec) :
    findEvent (events.map (fun kv =>
        if kv.1 == eventId then (kv.1, g kv.2) else kv)) k =
      if k = eventId then (findEvent events k).map g else findEvent events k := by
  induction events with
  | nil =>
    by_cases h : k = eventId <;> simp [findEvent, h]
  | cons kv rest ih =>
    rcases kv with ⟨key, ev⟩
    by_cases hkey : key = eventId
    · subst hkey
      by_cases hk : key = k
      · subst hk
        simp [findEvent_cons, List.map_cons]
      · have hk2 : ¬ k = key := fun h => hk h.symm
        rw [show List.map (fun kv => if kv.1 == key then (kv.1, g kv.2) else kv)
              ((key, ev) :: rest) =
            (key, g ev) :: List.map (fun kv => if kv.1 == key then (kv.1, g kv.2) else kv) rest
          from by simp]
        rw [findEvent_cons, findEvent_cons, if_neg hk, if_neg hk2, if_neg hk]
        rw [if_neg hk2] at ih
        exact ih
    · by_cases hk : key = k
      · subst hk
        have hk2 : ¬ key = eventId := hkey
        simp [findEvent_cons, List.map_cons, hk2]
      · simp only [List.map_cons]
        have hhead : (if ((key, ev) : List Char × EventRec).1 == eventId
            then (((key, ev) : List Char × EventRec).1, g ((key, ev) : List Char × EventRec).2)
            else ((key, ev) : List Char × EventRec)) = (key, ev) := by
          simp [hkey]
        rw [hhead, findEvent_cons, findEvent_cons, if_neg hk]
        by_cases hke : k = eventId
        · rw [if_pos hke] at ih ⊢
          rw [if_neg hk]
          exact ih
        · rw [if_neg hke] at ih ⊢
          rw [if_neg hk]
          exact ih

theorem findEvent_none_of_not_any (events : Store) (k : List Char)
    (h : events.any (fun kv => kv.1 == k) = false) : findEvent events k = none := by
  induction events with
  | nil => rfl
  | cons kv rest ih =>
    rcases kv with ⟨key, ev⟩
    simp only [List.any_cons, Bool.or_eq_false_iff] at h
    have hne : ¬ key = k := by simpa using h.1
    rw [findEvent_cons, if_neg hne]
    exact ih h.2

theorem any_of_findEvent_some (events : Store) (k : List Char)
    (h : (findEvent events k).isSome = true) :
    events.any (fun kv => kv.1 == k) = true := by
  by_cases hany : events.any (fun kv => kv.1 == k) = true
  · exact hany
  · have hnone : findEvent events k = none :=
      findEvent_none_of_not_any events k (Bool.eq_false_iff.mpr hany)
    rw [hnone] at h
    exact absurd h (by simp)

end EventLens

namespace EventLens

/-- Demonstration store: one event `"e1"` with minted = 3 whose wallet
`"w"` has already claimed. -/
def demoEventClaimed : EventRec :=
  { id := ['e', '1'], name := ['E'], description := [], location := [], assetId := 7,
    totalBadges := 10, minted := 3, createdAt := [], latitude := none, longitude := none,
    attendees := AttendeesRep.table [(['w'], ['t', '0'])] }

/-- Demonstration store holding `demoEventClaimed` under key `"e1"`. -/
def demoClaimedStore : Store := [(['e', '1'], demoEventClaimed)]

/-- C6 counterexample: re-recording an (event, subject) pair that is
already claimed is NOT a state-preserving no-op: the wallet `"w"` has
already claimed event `"e1"`, yet `increment_minted` still increments
the `minted` counter (3 becomes 4). -/
theorem increment_minted_not_noop_cex :
    hasClaimed demoClaimedStore ['e', '1'] ['w'] = true ∧
    mintedOf (incrementMinted demoClaimedStore ['e', '1'] ['w'] ['t', '1']) ['e', '1'] ≠
      mintedOf demoClaimedStore ['e', '1'] := by
  constructor
  · decide
  · decide

/-- C6 (amended): re-recording an already-claimed (event, subject) pair
raises nothing and leaves the attendee record unchanged (no duplicate
entry, the original `claimed_at` kept) and leaves every other event
untouched, but it increments the event's `minted` counter once more —
the operation is not idempotent on the counter. -/
theorem increment_minted_reclaim (events : Store) (eventId wallet nowIso : List Char)
    (m : List (List Char × List Char))
    (hatt : attendeesOf events eventId = some (AttendeesRep.table m))
    (hmem : m.any (fun p => p.1 == wallet) = true) :
    attendeesOf (incrementMinted events eventId wallet nowIso) eventId =
      some (AttendeesRep.table m) ∧
    mintedOf (incrementMinted events eventId wallet nowIso) eventId =
      (mintedOf events eventId).map (fun n => n + 1) ∧
    ∀ k, k ≠ eventId →
      findEvent (incrementMinted events eventId wallet nowIso) k = findEvent events k := by
  obtain ⟨ev, hev, hevatt⟩ :
      ∃ ev, findEvent events eventId = some ev ∧ ev.attendees = AttendeesRep.table m := by
    unfold attendeesOf at hatt
    cases hfe : findEvent events eventId with
    | none => rw [hfe] at hatt; exact absurd hatt (by simp)
    | some ev =>
      rw [hfe] at hatt
      simp at hatt
      exact ⟨ev, rfl, hatt⟩
  have hguard : events.any (fun kv => kv.1 == eventId) = true :=
    any_of_findEvent_some events eventId (by rw [hev]; rfl)
  have hrun : incrementMinted events eventId wallet nowIso =
      events.map (fun kv =>
        if kv.1 == eventId then (kv.1, mintUpd wallet nowIso kv.2) else kv) := by
    unfold incrementMinted
    rw [if_pos hguard]
  have hfe2 : findEvent (incrementMinted events eventId wallet nowIso) eventId =
      some (mintUpd wallet nowIso ev) := by
    rw [hrun, findEvent_map_upd, if_pos rfl, hev]
    rfl
  have hupd : mintUpd wallet nowIso ev =
      { ev with minted := ev.minted + 1, attendees := AttendeesRep.table m } := by
    unfold mintUpd
    rw [hevatt]
    simp [migrateAttendees, addAttendee, hmem]
  refine ⟨?_, ?_, ?_⟩
  · unfold attendeesOf
    rw [hfe2, hupd]
    rfl
  · unfold mintedOf
    rw [hfe2, hupd, hev]
    rfl
  · intro k hk
    rw [hrun, findEvent_map_upd, if_neg hk]

/-- C6 witness: the amended statement at the demonstration store — the
attendee entry survives unchanged while the counter moves from 3 to 4,
and an unrelated key is untouched. -/
theorem increment_minted_reclaim_witness :
    attendeesOf (incrementMinted demoClaimedStore ['e', '1'] ['w'] ['t', '1']) ['e', '1'] =
      some (AttendeesRep.table [(['w'], ['t', '0'])]) ∧
    mintedOf (incrementMinted demoClaimedStore ['e', '1'] ['w'] ['t', '1']) ['e', '1'] =
      (mintedOf demoClaimedStore ['e', '1']).map (fun n => n + 1) ∧
    findEvent (incrementMinted demoClaimedStore ['e', '1'] ['w'] ['t', '1']) ['z'] =
      findEvent demoClaimedStore ['z'] := by
  have h := increment_minted_reclaim demoClaimedStore ['e', '1'] ['w'] ['t', '1']
    [(['w'], ['t', '0'])] (by decide) (by decide)
  exact ⟨h.1, h.2.1, h.2.2 ['z'] (by decide)⟩

/-- C10: calling `increment_minted` with an event id that is not in the
store raises nothing and returns the store completely unchanged — no
event created, no counter changed, no attendee recorded. -/
theorem increment_minted_unknown_event (events : Store) (eventId wallet nowIso : List Char)
    (h : events.any (fun kv => kv.1 == eventId) = false) :
    incrementMinted events eventId wallet nowIso = events := by
  unfold incrementMinted
  simp [h]

/-- C10 witness: incrementing an unknown event id `"z"` on the
demonstration store returns it unchanged. -/
theorem increment_minted_unknown_event_witness :
    incrementMinted demoClaimedStore ['z'] ['w'] [] = demoClaimedStore :=
  increment_minted_unknown_event demoClaimedStore ['z'] ['w'] [] (by decide)

end EventLens

namespace EventLens

/-! ## Concurrent mint attempts (main.py mint_badge + event_store.py)

`mint_badge` checks `has_claimed`, then performs the external issuance
(`send_soulbound_token`), then records with `increment_minted`; only the
record step runs under the store lock.  Two concurrent requests for the
same (event, subject) are modelled as interleavings of their three
atomic steps: the claimed-check read, the issuance call, and the locked
record. -/

/-- Count of attendee entries for a wallet in one representation. -/
def repCount (a : AttendeesRep) (wallet : List Char) : Nat :=
  match a with
  | AttendeesRep.legacy ws => ws.countP (fun x => x == wallet)
  | AttendeesRep.table m => m.countP (fun p => p.1 == wallet)

/-- Count of attendee entries (ClaimRecords) for (event, wallet). -/
def attendeeCount (events : Store) (eventId wallet : List Char) : Nat :=
  match findEvent events eventId with
  | none => 0
  | some ev => repCount ev.attendees wallet

theorem repCount_migrate (a : AttendeesRep) (nowIso wallet : List Char) :
    repCount (migrateAttendees a nowIso) wallet = repCount a wallet := by
  cases a with
  | legacy ws =>
    simp [migrateAttendees, repCount, List.countP_map]
    rfl
  | table m => rfl

theorem repCount_add_le (a : AttendeesRep) (wallet nowIso : List Char)
    (h : repCount a wallet ≤ 1) : repCount (addAttendee a wallet nowIso) wallet ≤ 1 := by
  cases a with
  | legacy ws => exact h
  | table m =>
    have hred : addAttendee (AttendeesRep.table m) wallet nowIso =
        if m.any (fun p => p.1 == wallet) then AttendeesRep.table m
        else AttendeesRep.table (m ++ [(wallet, nowIso)]) := rfl
    rw [hred]
    by_cases hmem : m.any (fun p => p.1 == wallet) = true
    · rw [if_pos hmem]
      exact h
    · rw [if_neg hmem]
      have hzero : m.countP (fun p => p.1 == wallet) = 0 := by
        rw [List.countP_eq_zero]
        intro p hp hpw
        exact hmem (List.any_eq_true.mpr ⟨p, hp, hpw⟩)
      show List.countP (fun p => p.1 == wallet) (m ++ [(wallet, nowIso)]) ≤ 1
      rw [List.countP_append, hzero]
      simp [List.countP_cons]

theorem attendeeCount_incrementMinted_le (events : Store) (eventId wallet nowIso : List Char)
    (h : attendeeCount events eventId wallet ≤ 1) :
    attendeeCount (incrementMinted events eventId wallet nowIso) eventId wallet ≤ 1 := by
  unfold incrementMinted
  by_cases hg : events.any (fun kv => kv.1 == eventId) = true
  · rw [if_pos hg]
    unfold attendeeCount
    rw [findEvent_map_upd, if_pos rfl]
    cases hfe : findEvent events eventId with
    | none => simp
    | some ev =>
      unfold attendeeCount at h
      rw [hfe] at h
      have : (mintUpd wallet nowIso ev).attendees =
          addAttendee (migrateAttendees ev.attendees nowIso) wallet nowIso := rfl
      simp only [Option.map_some']
      show repCount (mintUpd wallet nowIso ev).attendees wallet ≤ 1
      rw [this]
      exact repCount_add_le _ _ _ (by rw [repCount_migrate]; exact h)
  · rw [if_neg hg]
    exact h

/-- Local state of one mint request: program counter over its three
steps (0 = claimed-check, 1 = issuance, 2 = record, 3 = done), plus a
halted flag for the already-claimed early return. -/
structure ReqState where
  pc : Nat
  halted : Bool
deriving DecidableEq

/-- Shared state: the event store plus the number of external issuance
calls performed so far. -/
structure MintState where
  events : Store
  issueCalls : Nat

/-- One atomic step of a mint request for (event, wallet): the
`has_claimed` guard read, the external `send_soulbound_token` call, or
the locked `increment_minted` record. -/
def stepReq (eventId wallet nowIso : List Char) (st : MintState) (r : ReqState) :
    MintState × ReqState :=
  if r.halted then (st, r)
  else match r.pc with
  | 0 =>
    if hasClaimed st.events eventId wallet then (st, { r with halted := true })
    else (st, { r with pc := 1 })
  | 1 => ({ st with issueCalls := st.issueCalls + 1 }, { r with pc := 2 })
  | 2 => ({ st with events := incrementMinted st.events eventId wallet nowIso },
          { r with pc := 3 })
  | _ => (st, r)

/-- Run an interleaving of two requests: `true` steps the first request,
`false` the second. -/
def runSched (eventId wallet nowIso : List Char) :
    MintState → ReqState → ReqState → List Bool → MintState × ReqState × ReqState
  | st, r1, r2, [] => (st, r1, r2)
  | st, r1, r2, b :: rest =>
    if b then
      let s := stepReq eventId wallet nowIso st r1
      runSched eventId wallet nowIso s.1 s.2 r2 rest
    else
      let s := stepReq eventId wallet nowIso st r2
      runSched eventId wallet nowIso s.1 r1 s.2 rest

theorem attendeeCount_stepReq_le (eventId wallet nowIso : List Char) (st : MintState)
    (r : ReqState) (h : attendeeCount st.events eventId wallet ≤ 1) :
    attendeeCount (stepReq eventId wallet nowIso st r).1.events eventId wallet ≤ 1 := by
  rcases r with ⟨pc, halted⟩
  cases halted with
  | true => exact h
  | false =>
    unfold stepReq
    simp only [Bool.false_eq_true, if_false]
    cases pc with
    | zero =>
      by_cases hc : hasClaimed st.events eventId wallet = true
      · simp only [hc, if_true]
        exact h
      · simp only [Bool.eq_false_iff.mpr hc, Bool.false_eq_true, if_false]
        exact h
    | succ pc1 =>
      cases pc1 with
      | zero => exact h
      | succ pc2 =>
        cases pc2 with
        | zero => exact attendeeCount_incrementMinted_le st.events eventId wallet nowIso h
        | succ pc3 => exact h

/-- Demonstration store for the race: event `"e1"` exists, nobody has
claimed it yet. -/
def demoFreshStore : Store :=
  [(['e', '1'], { demoEventClaimed with minted := 0, attendees := AttendeesRep.table [] })]

end EventLens

namespace EventLens

theorem attendeeCount_runSched_le (eventId wallet nowIso : List Char) (sched : List Bool) :
    ∀ (st : MintState) (r1 r2 : ReqState),
      attendeeCount st.events eventId wallet ≤ 1 →
      attendeeCount (runSched eventId wallet nowIso st r1 r2 sched).1.events eventId wallet ≤ 1 := by
  induction sched with
  | nil => intro st r1 r2 h; exact h
  | cons b rest ih =>
    intro st r1 r2 h
    cases b with
    | true =>
      exact ih _ _ _ (attendeeCount_stepReq_le eventId wallet nowIso st r1 h)
    | false =>
      exact ih _ _ _ (attendeeCount_stepReq_le eventId wallet nowIso st r2 h)

/-- C9 counterexample: with event `"e1"` present and unclaimed, the
interleaving check₁ check₂ issue₁ issue₂ record₁ record₂ of two mint
requests for the same (event, subject) performs the external issuance
call twice — `mint_badge` does not re-check `has_claimed` atomically
before `send_soulbound_token`, so "exactly one successful external
issuance call" is false. -/
theorem mint_race_two_issuances_cex :
    hasClaimed demoFreshStore ['e', '1'] ['w'] = false ∧
    (runSched ['e', '1'] ['w'] ['t', '1'] ⟨demoFreshStore, 0⟩ ⟨0, false⟩ ⟨0, false⟩
        [true, false, true, false, true, false]).1.issueCalls = 2 := by
  constructor
  · decide
  · decide

/-- C9 (amended): in every interleaving of two concurrent mint requests
for the same (event, subject), the Claim Ledger ends with at most one
attendee ClaimRecord for the pair (the locked insert in
`increment_minted` is conditional), but the already-claimed check is NOT
re-performed atomically before the irreversible issuance: there is an
interleaving in which both requests perform the external issuance
call. -/
theorem mint_race_at_most_one_record :
    (∀ (eventId wallet nowIso : List Char) (st : MintState) (r1 r2 : ReqState)
        (sched : List Bool),
      attendeeCount st.events eventId wallet ≤ 1 →
      attendeeCount (runSched eventId wallet nowIso st r1 r2 sched).1.events
        eventId wallet ≤ 1) ∧
    (runSched ['e', '1'] ['w'] ['t', '1'] ⟨demoFreshStore, 0⟩ ⟨0, false⟩ ⟨0, false⟩
        [true, false, true, false, true, false]).1.issueCalls = 2 := by
  constructor
  · intro eventId wallet nowIso st r1 r2 sched h
    exact attendeeCount_runSched_le eventId wallet nowIso sched st r1 r2 h
  · decide

/-- C9 witness: the at-most-one-record bound instantiated on the
double-issuance interleaving itself — even there the ledger holds at
most one attendee entry. -/
theorem mint_race_witness :
    attendeeCount (runSched ['e', '1'] ['w'] ['t', '1'] ⟨demoFreshStore, 0⟩
        ⟨0, false⟩ ⟨0, false⟩ [true, false, true, false, true, false]).1.events
      ['e', '1'] ['w'] ≤ 1 :=
  mint_race_at_most_one_record.1 ['e', '1'] ['w'] ['t', '1'] ⟨demoFreshStore, 0⟩
    ⟨0, false⟩ ⟨0, false⟩ [true, false, true, false, true, false] (by decide)

end EventLens

namespace EventLens

/-! ## Rate governor (main.py, _check_rate_limit)

`_rate_limit_store` is a defaultdict mapping client key to a list of
float timestamps, modelled as a total function with default `[]`;
timestamps are rationals.  The configuration constants are the
config.py defaults. -/

/-- `RATE_LIMIT_REQUESTS` default (config.py line 61). -/
def RATE_LIMIT_REQUESTS : Nat := 30

/-- `RATE_LIMIT_WINDOW` default in seconds (config.py line 62). -/
def RATE_LIMIT_WINDOW : ℚ := 60

/-- The per-client timestamp map. -/
def RateStore := List Char → List ℚ

/-- `_check_rate_limit(client_ip)`: drop entries at or before
`now − window`, store the cleaned list, reject when it already holds
`RATE_LIMIT_REQUESTS` timestamps, otherwise append `now` and admit.
Returns the admission flag and the updated map. -/
def checkRateLimit (store : RateStore) (clientIp : List Char) (now : ℚ) :
    Bool × RateStore :=
  let kept := (store clientIp).filter (fun t => decide (now - RATE_LIMIT_WINDOW < t))
  if RATE_LIMIT_REQUESTS ≤ kept.length then
    (false, Function.update store clientIp kept)
  else
    (true, Function.update store clientIp (kept ++ [now]))

/-- C8: the rate governor keeps a sliding window per client key with the
default limits 30 requests per 60 seconds: a check admits exactly when
fewer than 30 timestamps survive the window cut (so the 31st request
within the window is rejected); on admission it records `now` after the
surviving timestamps, on rejection it stores just the surviving
timestamps; other keys are never touched; and once every stored
timestamp has fallen out of the window the key is admitted again. -/
theorem rate_limiter_spec (store : RateStore) (clientIp : List Char) (now : ℚ) :
    ((checkRateLimit store clientIp now).1 = true ↔
      ((store clientIp).filter
        (fun t => decide (now - RATE_LIMIT_WINDOW < t))).length < RATE_LIMIT_REQUESTS) ∧
    ((checkRateLimit store clientIp now).1 = true →
      (checkRateLimit store clientIp now).2 clientIp =
        ((store clientIp).filter (fun t => decide (now - RATE_LIMIT_WINDOW < t))) ++ [now]) ∧
    ((checkRateLimit store clientIp now).1 = false →
      (checkRateLimit store clientIp now).2 clientIp =
        (store clientIp).filter (fun t => decide (now - RATE_LIMIT_WINDOW < t))) ∧
    (∀ other, other ≠ clientIp → (checkRateLimit store clientIp now).2 other = store other) ∧
    ((∀ t ∈ store clientIp, t ≤ now - RATE_LIMIT_WINDOW) →
      (checkRateLimit store clientIp now).1 = true) := by
  unfold checkRateLimit
  by_cases hfull : RATE_LIMIT_REQUESTS ≤
      ((store clientIp).filter (fun t => decide (now - RATE_LIMIT_WINDOW < t))).length
  · rw [if_pos hfull]
    refine ⟨?_, ?_, ?_, ?_, ?_⟩
    · simp [Nat.not_lt.mpr hfull]
    · intro h
      exact absurd h (by simp)
    · intro _
      exact Function.update_same _ _ _
    · intro other hne
      exact Function.update_noteq hne _ _
    · intro hall
      exfalso
      have hnil : (store clientIp).filter
          (fun t => decide (now - RATE_LIMIT_WINDOW < t)) = [] := by
        rw [List.filter_eq_nil_iff]
        intro t ht
        simp only [decide_eq_true_eq]
        exact not_lt.mpr (hall t ht)
      rw [hnil] at hfull
      simp [RATE_LIMIT_REQUESTS] at hfull
  · rw [if_neg hfull]
    refine ⟨?_, ?_, ?_, ?_, ?_⟩
    · simp [Nat.lt_of_not_le hfull]
    · intro _
      exact Function.update_same _ _ _
    · intro h
      exact absurd h (by simp)
    · intro other hne
      exact Function.update_noteq hne _ _
    · intro _
      rfl

/-- C8 witness: a fresh key is admitted at time 0 and its timestamp is
recorded; a different key's list is untouched. -/
theorem rate_limiter_spec_witness :
    (checkRateLimit (fun _ => []) ['i'] 0).1 = true ∧
    (checkRateLimit (fun _ => []) ['i'] 0).2 ['i'] = [(0 : ℚ)] ∧
    (checkRateLimit (fun _ => []) ['i'] 0).2 ['j'] = [] :=
  ⟨(rate_limiter_spec (fun _ => []) ['i'] 0).1.mpr (by decide),
   (rate_limiter_spec (fun _ => []) ['i'] 0).2.1
     ((rate_limiter_spec (fun _ => []) ['i'] 0).1.mpr (by decide)),
   (rate_limiter_spec (fun _ => []) ['i'] 0).2.2.2.1 ['j'] (by decide)⟩

end EventLens

namespace EventLens

/-! ## Geofence checker (ai_judge.py, _haversine_distance and
check_geolocation)

Python floats become real numbers; `math.atan2` is defined piecewise
from `Real.arctan`. -/

/-- `math.radians`. -/
noncomputable def radians (x : ℝ) : ℝ := x * (Real.pi / 180)

/-- `math.atan2 y x`: the angle of the point (x, y), piecewise from the
one-argument arctangent. -/
noncomputable def atan2 (y x : ℝ) : ℝ :=
  if 0 < x then Real.arctan (y / x)
  else if x < 0 ∧ 0 ≤ y then Real.arctan (y / x) + Real.pi
  else if x < 0 ∧ y < 0 then Real.arctan (y / x) - Real.pi
  else if x = 0 ∧ 0 < y then Real.pi / 2
  else if x = 0 ∧ y < 0 then -(Real.pi / 2)
  else 0

/-- The haversine intermediate value `a` of `_haversine_distance`. -/
noncomputable def haversineA (lat1 lon1 lat2 lon2 : ℝ) : ℝ :=
  Real.sin (radians (lat2 - lat1) / 2) ^ 2 +
    Real.cos (radians lat1) * Real.cos (radians lat2) *
      Real.sin (radians (lon2 - lon1) / 2) ^ 2

/-- `_haversine_distance`: great-circle distance in km with mean Earth
radius R = 6371 and the atan2 form of the haversine formula. -/
noncomputable def haversineDistance (lat1 lon1 lat2 lon2 : ℝ) : ℝ :=
  6371 * 2 * atan2 (Real.sqrt (haversineA lat1 lon1 lat2 lon2))
    (Real.sqrt (1 - haversineA lat1 lon1 lat2 lon2))

/-- Python `round(x, 2)` for the audit display field (modelled with the
mathematical nearest-integer rounding; Python rounds ties to even, a
difference that no claim touches). -/
noncomputable def round2 (x : ℝ) : ℝ := (round (x * 100) : ℤ) / 100

/-- `check_geolocation`: `unavailable` when either coordinate pair is
absent, otherwise `pass` exactly when the haversine distance is at most
`maxDistanceKm` (callers default it to 2 km), with the rounded distance
for display. -/
noncomputable def checkGeolocation (userLat userLon venueLat venueLon : Option ℝ)
    (maxDistanceKm : ℝ) : GeoResult :=
  match userLat, userLon with
  | some ula, some ulo =>
    match venueLat, venueLon with
    | some vla, some vlo =>
      if haversineDistance ula ulo vla vlo ≤ maxDistanceKm then
        ⟨GeoStatus.pass, some (round2 (haversineDistance ula ulo vla vlo))⟩
      else
        ⟨GeoStatus.fail, some (round2 (haversineDistance ula ulo vla vlo))⟩
    | _, _ => ⟨GeoStatus.unavailable, none⟩
  | _, _ => ⟨GeoStatus.unavailable, none⟩

theorem haversineA_self (lat lon : ℝ) : haversineA lat lon lat lon = 0 := by
  unfold haversineA radians
  simp

theorem haversineA_symm (lat1 lon1 lat2 lon2 : ℝ) :
    haversineA lat2 lon2 lat1 lon1 = haversineA lat1 lon1 lat2 lon2 := by
  unfold haversineA
  have h1 : radians (lat1 - lat2) / 2 = -(radians (lat2 - lat1) / 2) := by
    unfold radians
    ring
  have h2 : radians (lon1 - lon2) / 2 = -(radians (lon2 - lon1) / 2) := by
    unfold radians
    ring
  rw [h1, h2, Real.sin_neg, Real.sin_neg]
  ring

end EventLens

namespace EventLens

theorem checkGeolocation_some (ula ulo vla vlo m : ℝ) :
    checkGeolocation (some ula) (some ulo) (some vla) (some vlo) m =
      if haversineDistance ula ulo vla vlo ≤ m then
        ⟨GeoStatus.pass, some (round2 (haversineDistance ula ulo vla vlo))⟩
      else ⟨GeoStatus.fail, some (round2 (haversineDistance ula ulo vla vlo))⟩ := rfl

theorem atan2_zero_one : atan2 0 1 = 0 := by
  unfold atan2
  rw [if_pos (by norm_num : (0 : ℝ) < 1)]
  simp

theorem haversineDistance_self (lat lon : ℝ) : haversineDistance lat lon lat lon = 0 := by
  unfold haversineDistance
  rw [haversineA_self]
  rw [Real.sqrt_zero, sub_zero, Real.sqrt_one, atan2_zero_one]
  ring

theorem haversineDistance_symm (lat1 lon1 lat2 lon2 : ℝ) :
    haversineDistance lat1 lon1 lat2 lon2 = haversineDistance lat2 lon2 lat1 lon1 := by
  unfold haversineDistance
  rw [haversineA_symm]

/-- C7: the geofence checker returns `unavailable` exactly when a
coordinate is absent; with all four coordinates present its status is
`pass` precisely when the haversine great-circle distance (Earth radius
6371 km) is at most the maximum, `fail` otherwise, and the rounded
distance is reported; and the distance function satisfies
`distance(a,a) = 0` and `distance(a,b) = distance(b,a)`. -/
theorem geofence_spec :
    (∀ (ula ulo vla vlo : Option ℝ) (m : ℝ),
      (ula = none ∨ ulo = none ∨ vla = none ∨ vlo = none) →
      (checkGeolocation ula ulo vla vlo m).status = GeoStatus.unavailable) ∧
    (∀ (ula ulo vla vlo m : ℝ),
      ((checkGeolocation (some ula) (some ulo) (some vla) (some vlo) m).status =
          GeoStatus.pass ↔ haversineDistance ula ulo vla vlo ≤ m)) ∧
    (∀ (ula ulo vla vlo m : ℝ),
      ((checkGeolocation (some ula) (some ulo) (some vla) (some vlo) m).status =
          GeoStatus.fail ↔ ¬ haversineDistance ula ulo vla vlo ≤ m)) ∧
    (∀ (ula ulo vla vlo m : ℝ),
      (checkGeolocation (some ula) (some ulo) (some vla) (some vlo) m).distanceKm =
        some (round2 (haversineDistance ula ulo vla vlo))) ∧
    (∀ lat lon : ℝ, haversineDistance lat lon lat lon = 0) ∧
    (∀ lat1 lon1 lat2 lon2 : ℝ,
      haversineDistance lat1 lon1 lat2 lon2 = haversineDistance lat2 lon2 lat1 lon1) := by
  refine ⟨?_, ?_, ?_, ?_, haversineDistance_self, haversineDistance_symm⟩
  · intro ula ulo vla vlo m h
    rcases ula with _ | ula <;> rcases ulo with _ | ulo <;>
      rcases vla with _ | vla <;> rcases vlo with _ | vlo <;>
      simp_all [checkGeolocation]
  · intro ula ulo vla vlo m
    rw [checkGeolocation_some]
    by_cases h : haversineDistance ula ulo vla vlo ≤ m
    · rw [if_pos h]
      simp [h]
    · rw [if_neg h]
      simp [h]
  · intro ula ulo vla vlo m
    rw [checkGeolocation_some]
    by_cases h : haversineDistance ula ulo vla vlo ≤ m
    · rw [if_pos h]
      simp [h]
    · rw [if_neg h]
      simp [h]
  · intro ula ulo vla vlo m
    rw [checkGeolocation_some]
    by_cases h : haversineDistance ula ulo vla vlo ≤ m
    · rw [if_pos h]
    · rw [if_neg h]

/-- C7 witness: the absence branch at concrete coordinates and the
distance properties instantiated at the VIT Vellore venue coordinates
from the spec's end-to-end scenario. -/
theorem geofence_spec_witness :
    (checkGeolocation none none (some 12.9716) (some 79.1583) 2).status =
      GeoStatus.unavailable ∧
    haversineDistance 12.9716 79.1583 12.9716 79.1583 = 0 ∧
    haversineDistance 12.9716 79.1583 28.6139 77.209 =
      haversineDistance 28.6139 77.209 12.9716 79.1583 :=
  ⟨geofence_spec.1 none none (some 12.9716) (some 79.1583) 2 (Or.inl rfl),
   geofence_spec.2.2.2.2.1 12.9716 79.1583,
   geofence_spec.2.2.2.2.2 12.9716 79.1583 28.6139 77.209⟩

end EventLens

namespace EventLens

/-! ## Vision client, forensic inspector and the verification pipeline
(ai_judge.py verify_attendance_image / extract_exif_metadata /
full_verification, main.py verify_attendance)

The Gemini call and the EXIF parser are external: each is modelled by an
outcome parameter covering every result it can produce, including its
faults (`Except.error` / `parseFailed`), so the theorems quantify over
all fault injections.  The SHA-256 digest is an explicit function
parameter. -/

/-- Normalized reply of the vision service. -/
structure VisionRaw where
  confidence : Int
  reason : List Char
  indicators : List (List Char)
deriving DecidableEq

/-- `verify_attendance_image`: any fault of the Gemini call (timeout,
service error, malformed reply) is caught and becomes confidence 0 with
a labelled reason — fail closed. -/
def verifyAttendanceImage (outcome : Except (List Char) VisionRaw) : VisionRaw :=
  match outcome with
  | Except.ok r => r
  | Except.error e => ⟨0, "AI verification failed: ".toList ++ e, []⟩

/-- Outcome of the external EXIF parse inside `extract_exif_metadata`:
the `except` branch, the no-EXIF branch, or parsed fields. -/
inductive ExifOutcome
  | parseFailed
  | noData
  | withData (timestamp cameraModel software : Option (List Char))

/-- Substring test, Python `needle in hay`. -/
def containsSub (needle hay : List Char) : Bool := decide (List.IsInfix needle hay)

/-- The editing-tool names `suspicious_sw` of `extract_exif_metadata`. -/
def suspiciousSw : List (List Char) :=
  ["photoshop".toList, "gimp".toList, "lightroom".toList, "snapseed".toList]

/-- `extract_exif_metadata`: total — a parse failure or absent EXIF
degrades to `has_exif = false` with a flag; with EXIF present the
authoring-tool string is checked (case-insensitively) against the
editing-tool list and sets `suspicious` with a flag naming the tool. -/
def extractExifMetadata (outcome : ExifOutcome) : ExifMeta :=
  match outcome with
  | ExifOutcome.parseFailed =>
    ⟨false, none, none, none, false, ["Could not read EXIF data".toList]⟩
  | ExifOutcome.noData =>
    ⟨false, none, none, none, false,
      ["No EXIF data — could be a screenshot or downloaded image".toList]⟩
  | ExifOutcome.withData ts cm sw =>
    match sw with
    | none => ⟨true, ts, cm, none, false, []⟩
    | some v =>
      if suspiciousSw.any (fun s => containsSub s (v.map Char.toLower)) then
        ⟨true, ts, cm, some v, true, ["Edited with ".toList ++ v]⟩
      else ⟨true, ts, cm, some v, false, []⟩

/-- The composite result dict returned by `full_verification`. -/
structure FullResult where
  confidence : Int
  reason : List Char
  indicators : List (List Char)
  imageHash : List Char
  geoCheck : GeoStatus
  exifSummary : ExifMeta
  adjustments : List Adjustment

/-- `full_verification`: runs the four layers — vision (fail closed),
geolocation (default maximum 2 km), EXIF extraction (total), content
digest — and fuses them with the composite scorer.  Total for every
fault injection: no failure of a layer escapes it. -/
noncomputable def fullVerification (sha : List Char → List Char)
    (vision : Except (List Char) VisionRaw) (exifOutcome : ExifOutcome)
    (imageBytes _eventName _location : List Char)
    (userLat userLon venueLat venueLon : Option ℝ) : FullResult :=
  let ai := verifyAttendanceImage vision
  let geo := checkGeolocation userLat userLon venueLat venueLon 2
  let exif := extractExifMetadata exifOutcome
  let imageHash := sha imageBytes
  let comp := composite ai.confidence geo exif
  ⟨comp.1, ai.reason, ai.indicators, imageHash, geo.status, exif, comp.2⟩

/-- The `VerifyResponse` model of main.py. -/
structure VerifyResponse where
  success : Bool
  confidence : Int
  message : List Char
  eligible : Bool
  verifyToken : List Char
  imageHash : List Char
  geoCheck : Option GeoStatus

/-- `verify_attendance` (main.py lines 246-318): rate-limit admission
(429), event lookup (404), the already-claimed early return, the 10 MiB
size bound (400), then the full multi-layer verification; a signed token
is issued only when the composite confidence reaches 80.  `Except.error`
carries the HTTP status of a raised `HTTPException`. -/
noncomputable def verifyAttendance (mac sha : List Char → List Char)
    (rateStore : RateStore) (clientIp : List Char) (now : ℚ)
    (events : Store) (eventId wallet imageBytes : List Char)
    (latitude longitude : Option ℝ)
    (vision : Except (List Char) VisionRaw) (exifOutcome : ExifOutcome) :
    Except Nat VerifyResponse × RateStore :=
  let rl := checkRateLimit rateStore clientIp now
  if rl.1 = false then (Except.error 429, rl.2)
  else
    match findEvent events eventId with
    | none => (Except.error 404, rl.2)
    | some ev =>
      if hasClaimed events eventId wallet then
        (Except.ok ⟨false, 0, "You have already claimed this badge.".toList,
          false, [], [], none⟩, rl.2)
      else if 10 * 1024 * 1024 < imageBytes.length then (Except.error 400, rl.2)
      else
        let result := fullVerification sha vision exifOutcome imageBytes
          ev.name ev.location latitude longitude ev.latitude ev.longitude
        let eligible := decide (80 ≤ result.confidence)
        let token :=
          if eligible then
            createVerifyToken mac eventId wallet result.confidence result.imageHash
              (Int.toNat ⌊now⌋)
          else []
        (Except.ok ⟨true, result.confidence, result.reason, eligible, token,
          result.imageHash, some result.geoCheck⟩, rl.2)

/-- Whether the call returned a response rather than raising. -/
def isOkB (r : Except Nat VerifyResponse) : Bool :=
  match r with
  | Except.ok _ => true
  | Except.error _ => false

end EventLens

namespace EventLens

/-- C5: signal-extraction faults degrade to safe defaults and never
escape — a vision fault becomes confidence 0 with a labelled reason, an
EXIF parse failure becomes has-provenance = false without a suspicious
flag, and for every admitted well-formed request (rate limit passed,
event known, not yet claimed, payload within 10 MiB) the verification
boundary returns a response — never raises — for EVERY vision and EXIF
fault injection. -/
theorem pipeline_fault_tolerant :
    (∀ e : List Char,
      verifyAttendanceImage (Except.error e) =
        ⟨0, "AI verification failed: ".toList ++ e, []⟩) ∧
    ((extractExifMetadata ExifOutcome.parseFailed).hasExif = false ∧
      (extractExifMetadata ExifOutcome.parseFailed).suspicious = false) ∧
    (∀ (mac sha : List Char → List Char) (rateStore : RateStore) (clientIp : List Char)
        (now : ℚ) (events : Store) (eventId wallet imageBytes : List Char)
        (lat lon : Option ℝ) (vision : Except (List Char) VisionRaw)
        (exifOutcome : ExifOutcome),
      (checkRateLimit rateStore clientIp now).1 = true →
      (findEvent events eventId).isSome = true →
      hasClaimed events eventId wallet = false →
      imageBytes.length ≤ 10 * 1024 * 1024 →
      isOkB (verifyAttendance mac sha rateStore clientIp now events eventId wallet
        imageBytes lat lon vision exifOutcome).1 = true) := by
  refine ⟨fun e => rfl, ⟨rfl, rfl⟩, ?_⟩
  intro mac sha rateStore clientIp now events eventId wallet imageBytes lat lon
    vision exifOutcome h1 h2 h3 h4
  obtain ⟨ev, hev⟩ := Option.isSome_iff_exists.mp h2
  have hsize : ¬ (10 * 1024 * 1024 < imageBytes.length) := not_lt.mpr h4
  unfold verifyAttendance
  simp [hev, h1, h3, hsize, isOkB]

/-- C5 witness: a request that passes admission with BOTH the vision
call failing (timeout) and the EXIF parse failing still receives an
ordinary response. -/
theorem pipeline_fault_tolerant_witness :
    isOkB (verifyAttendance macDemo (fun _ => []) (fun _ => []) ['i'] 0 demoFreshStore
      ['e', '1'] ['w'] [] none none (Except.error "timeout".toList)
      ExifOutcome.parseFailed).1 = true :=
  pipeline_fault_tolerant.2.2 macDemo (fun _ => []) (fun _ => []) ['i'] 0 demoFreshStore
    ['e', '1'] ['w'] [] none none (Except.error "timeout".toList) ExifOutcome.parseFailed
    (by decide) (by decide) (by decide) (by decide)

end EventLens
